import Mathlib

/-!
# A verification development for the `pricepy` tabular preprocessing pipeline

Shallow embedding of `src/ml_model/src/data/data_preprocessing.py`
(class `DataPreprocessor`).  A pandas `DataFrame` is modelled as a column
schema (ordered column names with dtypes) together with a list of rows,
each row a list of cell values aligned with the schema.  Cell values are
`null` (NaN / missing), strings, or numbers (idealized as rationals).
Operations that can raise in Python (`KeyError`, `TypeError`, `ValueError`)
return `Except String DataFrame`.

The configuration constants `NUMERIC_FEATS`, `CATEGORICAL_FEATS`,
`FEAT_COLS` and `TARGET_COL` come from `_common.misc.variables`, which is
not part of this repository snapshot; following the spec they are treated
as externally supplied read-only configuration, so every definition below
is parametric in them.
-/

set_option autoImplicit false

/-- Pandas column dtypes that occur in the source: plain `object`,
`float64` (after `astype(float)`), and `category` (after
`astype("category")`). -/
inductive DType
  | obj
  | float64
  | category
deriving DecidableEq

/-- A cell value: missing (NaN/None), a string, or a number (floats are
idealized as rationals). -/
inductive Value
  | null
  | str (s : String)
  | num (q : ℚ)
deriving DecidableEq

/-- A pandas DataFrame: ordered column schema (name, dtype) and rows of
cell values positionally aligned with the schema. -/
structure DataFrame where
  cols : List (String × DType)
  rows : List (List Value)
deriving DecidableEq

/-- Cell of a row at column position `i`; out-of-range reads as missing. -/
def cellD (r : List Value) (i : ℕ) : Value := r.getD i Value.null

/-- The ordered list of column names of a frame. -/
def colNames (df : DataFrame) : List String := df.cols.map Prod.fst

/-- Position of the first occurrence of a name in a name list. -/
def idxOfName : List String → String → Option ℕ
  | [], _ => none
  | c :: cs, n => if c = n then some 0 else (idxOfName cs n).map (· + 1)

/-- Position of a column in a frame (pandas label lookup). -/
def colIdx (df : DataFrame) (n : String) : Option ℕ := idxOfName (colNames df) n

/-- Dtype of the column at position `i`. -/
def colDType (df : DataFrame) (i : ℕ) : DType := (df.cols.getD i ("", DType.obj)).2

/-- Replace the dtype of the column at position `i`, keeping its name. -/
def setDType (cols : List (String × DType)) (i : ℕ) (dt : DType) :
    List (String × DType) :=
  cols.set i ((cols.getD i ("", DType.obj)).1, dt)

/-- Numeric value of a decimal digit character. -/
def digitVal (c : Char) : Option ℕ := if c.isDigit then some (c.toNat - 48) else none

/-- Value of a digit string read in base 10; `none` if any character is not
a digit, `some 0` on the empty list. -/
def digitsVal (cs : List Char) : Option ℕ :=
  cs.foldl (fun acc c => acc.bind fun n => (digitVal c).map fun d => n * 10 + d) (some 0)

/-- Parse an unsigned decimal literal (`"12"`, `"12."`, `".5"`, `"12.5"`),
the grammar shared by Python `float()` and `pandas.to_numeric`. -/
def parseUnsignedChars (cs : List Char) : Option ℚ :=
  let ip := cs.takeWhile (·.isDigit)
  let rest := cs.dropWhile (·.isDigit)
  match rest with
  | [] => if ip.isEmpty then none else (digitsVal ip).map fun n => (n : ℚ)
  | '.' :: fr =>
    if fr.all (·.isDigit) && !(ip.isEmpty && fr.isEmpty) then
      some (((digitsVal ip).getD 0 : ℚ) + ((digitsVal fr).getD 0 : ℚ) / (10 : ℚ) ^ fr.length)
    else none
  | _ => none

/-- ASCII whitespace, as stripped by Python `float()`. -/
def isSpaceChar (c : Char) : Bool := c = ' ' || c = '\t' || c = '\n' || c = '\r'

/-- Strip leading and trailing whitespace from a character list. -/
def trimChars (cs : List Char) : List Char :=
  ((cs.dropWhile isSpaceChar).reverse.dropWhile isSpaceChar).reverse

/-- Parse a (possibly signed, whitespace-trimmed) decimal literal, the way
both `float(s)` and `pandas.to_numeric` read plain decimal strings. -/
def parseRatString (s : String) : Option ℚ :=
  match trimChars s.toList with
  | '-' :: cs => (parseUnsignedChars cs).map fun q => -q
  | '+' :: cs => parseUnsignedChars cs
  | cs => parseUnsignedChars cs

/-- `pandas.to_numeric(v, errors="coerce")` on one cell: numbers pass
through, strings are parsed, missing and unparseable become NaN (`none`). -/
def toNumQ : Value → Option ℚ
  | Value.null => none
  | Value.num q => some q
  | Value.str s => parseRatString s

/-- `astype(float)` on one cell: NaN stays NaN, numbers pass through,
strings must parse as a float literal (otherwise `ValueError`). -/
def floatOfValue : Value → Option Value
  | Value.null => some Value.null
  | Value.num q => some (Value.num q)
  | Value.str s => (parseRatString s).map Value.num

/-- Read a cell as a number, if it is one. -/
def asQ : Value → Option ℚ
  | Value.num q => some q
  | _ => none

/-- Numeric content of a cell, defaulting to 0 (used only where the cell is
known to be numeric). -/
def qOf : Value → ℚ
  | Value.num q => q
  | _ => 0

/-- Is the cell a Python string? -/
def isStrV : Value → Bool
  | Value.str _ => true
  | _ => false

/-- Is the cell non-missing (`Series.notna`)? -/
def notNullB : Value → Bool
  | Value.null => false
  | _ => true

/-- Elementwise `cell < t` for a numeric threshold, as Python evaluates it:
numbers compare, NaN compares false; strings raise (handled at column
level in `filterLt`). -/
def valLtB (v : Value) (t : ℚ) : Bool :=
  match v with
  | Value.num q => decide (q < t)
  | _ => false

/-- `df[n].fillna(v, inplace=True)`: replace missing cells of column `n`;
`KeyError` if the column does not exist. -/
def fillnaCol (df : DataFrame) (n : String) (v : Value) : Except String DataFrame :=
  match colIdx df n with
  | none => Except.error "KeyError"
  | some i => Except.ok ⟨df.cols, df.rows.map fun r =>
      r.set i (match cellD r i with | Value.null => v | w => w)⟩

/-- Keep the first occurrence of each row (helper for `drop_duplicates`). -/
def dedupAux : List (List Value) → List (List Value) → List (List Value)
  | _, [] => []
  | seen, r :: rs =>
    if r ∈ seen then dedupAux seen rs else r :: dedupAux (r :: seen) rs

/-- `df.drop_duplicates(inplace=True)`: remove rows equal (on all columns)
to an earlier row. -/
def drop_duplicates (df : DataFrame) : DataFrame := ⟨df.cols, dedupAux [] df.rows⟩

/-- `df[df[n].notna()]`: keep rows whose `n` cell is not missing. -/
def filterNotna (df : DataFrame) (n : String) : Except String DataFrame :=
  match colIdx df n with
  | none => Except.error "KeyError"
  | some i => Except.ok ⟨df.cols, df.rows.filter fun r => notNullB (cellD r i)⟩

/-- `df[pd.to_numeric(df[n], errors="coerce").notna()]`: keep rows whose
`n` cell coerces to a number. -/
def filterToNumericMask (df : DataFrame) (n : String) : Except String DataFrame :=
  match colIdx df n with
  | none => Except.error "KeyError"
  | some i => Except.ok ⟨df.cols, df.rows.filter fun r => (toNumQ (cellD r i)).isSome⟩

/-- `df[n] = df[n].astype(float)`: column-wide float cast; fails with
`ValueError` if any cell cannot be read as a float. -/
def castFloatCol (df : DataFrame) (n : String) : Except String DataFrame :=
  match colIdx df n with
  | none => Except.error "KeyError"
  | some i =>
    if df.rows.all (fun r => (floatOfValue (cellD r i)).isSome) then
      Except.ok ⟨setDType df.cols i DType.float64,
        df.rows.map fun r => r.set i ((floatOfValue (cellD r i)).getD Value.null)⟩
    else Except.error "ValueError"

/-- Writes the column dtype to `category`; cell values are unchanged
(pandas keeps the underlying objects). -/
def castCategoryCol (df : DataFrame) (n : String) : Except String DataFrame :=
  match colIdx df n with
  | none => Except.error "KeyError"
  | some i => Except.ok ⟨setDType df.cols i DType.category, df.rows⟩

/-- `df[df[n] < t]`: vectorized comparison then boolean filter.  On an
unordered categorical column, or if any cell is a string, Python raises
`TypeError`; NaN cells compare false and are filtered out. -/
def filterLt (df : DataFrame) (n : String) (t : ℚ) : Except String DataFrame :=
  match colIdx df n with
  | none => Except.error "KeyError"
  | some i =>
    if colDType df i = DType.category then Except.error "TypeError"
    else if df.rows.any (fun r => isStrV (cellD r i)) then Except.error "TypeError"
    else Except.ok ⟨df.cols, df.rows.filter fun r => valLtB (cellD r i) t⟩

/-- `df[ns]`: label projection onto the columns named in `ns`, in that
order; `KeyError` if any is missing. -/
def projectCols (df : DataFrame) (ns : List String) : Except String DataFrame :=
  if ns.all (fun n => (colIdx df n).isSome) then
    Except.ok ⟨ns.map (fun n => df.cols.getD ((colIdx df n).getD 0) (n, DType.obj)),
      df.rows.map fun r => ns.map fun n => cellD r ((colIdx df n).getD 0)⟩
  else Except.error "KeyError"

/-- `DataPreprocessor._handle_missing_and_duplicated_values`: fill the six
categorical-ish columns (sentinel `"brak informacji"`, numeric `1` for
`rooms`), drop exact-duplicate rows, then drop rows with missing `price`
or missing `size`, in source order. -/
def _handle_missing_and_duplicated_values (df : DataFrame) : Except String DataFrame := do
  let d1 ← fillnaCol df "floor" (Value.str "brak informacji")
  let d2 ← fillnaCol d1 "status" (Value.str "brak informacji")
  let d3 ← fillnaCol d2 "property_type" (Value.str "brak informacji")
  let d4 ← fillnaCol d3 "rooms" (Value.num 1)
  let d5 ← fillnaCol d4 "year_built" (Value.str "brak informacji")
  let d6 ← fillnaCol d5 "property_condition" (Value.str "brak informacji")
  let d7 := drop_duplicates d6
  let d8 ← filterNotna d7 "price"
  filterNotna d8 "size"

/-- `DataPreprocessor._process_price`: keep rows whose `price` coerces to
a number, cast the column to float, and, only when `filter_price > 0`,
keep rows with `price < filter_price`. -/
def _process_price (df : DataFrame) (filter_price : ℚ) : Except String DataFrame := do
  let d1 ← filterToNumericMask df "price"
  let d2 ← castFloatCol d1 "price"
  if filter_price > 0 then filterLt d2 "price" filter_price else Except.ok d2

/-- `DataPreprocessor._process_size`: when `filter_size > 0`, keep rows
with `size < filter_size` (the commented-out median imputation of the
source is inactive and not modelled). -/
def _process_size (df : DataFrame) (filter_size : ℚ) : Except String DataFrame :=
  if filter_size > 0 then filterLt df "size" filter_size else Except.ok df

/-- `DataPreprocessor._process_floor`: when `filter_floor > 0`, keep rows
with `floor < filter_floor`. -/
def _process_floor (df : DataFrame) (filter_floor : ℚ) : Except String DataFrame :=
  if filter_floor > 0 then filterLt df "floor" filter_floor else Except.ok df

/-- `DataPreprocessor._cast_types`: cast every `NUMERIC_FEATS` column to
float, then every `CATEGORICAL_FEATS` column to category, in source
order. -/
def _cast_types (nf cf : List String) (df : DataFrame) : Except String DataFrame := do
  let d1 ← List.foldlM castFloatCol df nf
  List.foldlM castCategoryCol d1 cf

/-- `DataPreprocessor.static_cast_types` (value level): the staticmethod
body, textually identical to `_cast_types`, applied to the argument
frame. -/
def static_cast_types (nf cf : List String) (df : DataFrame) : Except String DataFrame := do
  let d1 ← List.foldlM castFloatCol df nf
  List.foldlM castCategoryCol d1 cf

/-- Call semantics of the staticmethod in Python: `df[col] = ...` assigns
columns in place on the argument object and the same object is returned.
Given the owned frame of some instance and the caller's argument frame,
the result is `(returned frame, argument frame after the call, owned
frame after the call)`; the staticmethod has no access to the instance,
so the owned frame passes through unchanged, while the argument ends up
equal to the returned (coerced) frame. -/
def static_cast_types_call (nf cf : List String) (self_df df : DataFrame) :
    Except String (DataFrame × DataFrame × DataFrame) :=
  (static_cast_types nf cf df).map fun r => (r, r, self_df)

/-- `DataPreprocessor._select_features`: `self.df = self.df[FEAT_COLS +
[TARGET_COL]]`. -/
def _select_features (fc : List String) (tc : String) (df : DataFrame) :
    Except String DataFrame :=
  projectCols df (fc ++ [tc])

/-- Mean of a list of rationals (0 on the empty list, which the callers
exclude). -/
def qmean (xs : List ℚ) : ℚ := xs.sum / xs.length

/-- Population variance (`ddof = 0`, as `StandardScaler` computes it). -/
def qvar (xs : List ℚ) : ℚ :=
  (xs.map fun x => (x - qmean xs) * (x - qmean xs)).sum / xs.length

/-- One column of `StandardScaler.fit_transform`: every cell must already
be numeric (sklearn raises on NaN or non-numeric input, and on an empty
column), the scale is `sqrt(variance)` with a zero scale replaced by `1`,
and the column is overwritten with `(x - mean) / scale`.  The square root
computed by sklearn in floating point is idealized as the parameter
`sq`. -/
def standardizeOne (sq : ℚ → ℚ) (df : DataFrame) (n : String) :
    Except String DataFrame :=
  match colIdx df n with
  | none => Except.error "KeyError"
  | some i =>
    match df.rows.mapM (fun r => asQ (cellD r i)) with
    | none => Except.error "ValueError"
    | some xs =>
      if xs.length = 0 then Except.error "ValueError"
      else
        let m := qmean xs
        let s0 := sq (qvar xs)
        let s := if s0 = 0 then 1 else s0
        Except.ok ⟨setDType df.cols i DType.float64,
          df.rows.map fun r => r.set i (Value.num ((qOf (cellD r i) - m) / s))⟩

/-- `DataPreprocessor._standardize`: `self.df[NUMERIC_FEATS] =
StandardScaler().fit_transform(self.df[NUMERIC_FEATS])`; the scaler fits
and transforms each numeric-feature column independently on the current
data. -/
def _standardize (sq : ℚ → ℚ) (nf : List String) (df : DataFrame) :
    Except String DataFrame :=
  List.foldlM (standardizeOne sq) df nf

/-- `DataPreprocessor.run_preprocessing_pipeline`: optional cast, price
filter at `17500000.0`, size filter at `1000.0`, floor filter at `30.0`,
optional standardization, then feature selection — exactly the source
order.  `_handle_missing_and_duplicated_values` is not called. -/
def run_preprocessing_pipeline (nf cf fc : List String) (tc : String) (sq : ℚ → ℚ)
    (df : DataFrame) (cast_types standardize : Bool) : Except String DataFrame := do
  let d1 ← if cast_types then _cast_types nf cf df else Except.ok df
  let d2 ← _process_price d1 17500000
  let d3 ← _process_size d2 1000
  let d4 ← _process_floor d3 30
  let d5 ← if standardize then _standardize sq nf d4 else Except.ok d4
  _select_features fc tc d5

/-- Modelled from the spec: sklearn's `train_test_split(X, y,
test_size=0.2, ...)` (the library is not part of this repository) takes
`ceil(0.2 * n)` test rows. -/
def nTestOf (n : ℕ) : ℕ := (n + 4) / 5

/-- Rows of a frame at the given positions. -/
def takeIdx (rows : List (List Value)) (idxs : List ℕ) : List (List Value) :=
  idxs.map fun i => rows.getD i []

/-- Modelled from the spec: `sklearn.model_selection.train_test_split(X, y,
test_size=0.2, random_state=42, shuffle=True)` — the library function is
not part of this repository.  Under a fixed seed it deterministically
permutes the row indices and takes the first `ceil(0.2 * n)` of them as
the holdout; the seed-42-determined permutation of `range n` is the
parameter `perm`. -/
def sk_train_test_split (perm : List ℕ) (X : DataFrame) (y : List Value) :
    DataFrame × DataFrame × List Value × List Value :=
  let k := nTestOf X.rows.length
  let testIdx := perm.take k
  let trainIdx := perm.drop k
  (⟨X.cols, takeIdx X.rows trainIdx⟩, ⟨X.cols, takeIdx X.rows testIdx⟩,
    trainIdx.map (fun i => y.getD i Value.null),
    testIdx.map (fun i => y.getD i Value.null))

/-- `DataPreprocessor.train_test_split`: splits `self.df[FEAT_COLS]`
against `self.df[TARGET_COL]` with `test_size=0.2, random_state=42,
shuffle=True` and returns `(X_train, X_test, y_train, y_test)`. -/
def train_test_split (fc : List String) (tc : String) (perm : List ℕ)
    (df : DataFrame) :
    Except String (DataFrame × DataFrame × List Value × List Value) := do
  let X ← projectCols df fc
  match colIdx df tc with
  | none => Except.error "KeyError"
  | some i => Except.ok (sk_train_test_split perm X (df.rows.map fun r => cellD r i))

/-- `DataPreprocessor.get`: returns the owned frame verbatim. -/
def get (df : DataFrame) : DataFrame := df

/-- Frame with two identical rows over all eight raw columns, used to show
the orchestrator does not deduplicate. -/
def pipelineDupDf : DataFrame :=
  ⟨[("floor", DType.obj), ("status", DType.obj), ("property_type", DType.obj),
    ("rooms", DType.obj), ("year_built", DType.obj), ("property_condition", DType.obj),
    ("price", DType.obj), ("size", DType.obj)],
   [[Value.num 1, Value.str "ok", Value.str "x", Value.num 2, Value.num 2000,
     Value.str "y", Value.num 100, Value.num 50],
    [Value.num 1, Value.str "ok", Value.str "x", Value.num 2, Value.num 2000,
     Value.str "y", Value.num 100, Value.num 50]]⟩

/-- Frame carrying the spec scenario for `_process_price`: `price` values
`"100000"`, `"abc"`, `"250000"`. -/
def priceScenarioDf : DataFrame :=
  ⟨[("price", DType.obj)], [[Value.str "100000"], [Value.str "abc"], [Value.str "250000"]]⟩

/-- Frame with extra columns around the selected features, for the C9
witness. -/
def selectScenarioDf : DataFrame :=
  ⟨[("url", DType.obj), ("size", DType.obj), ("rooms", DType.obj),
    ("desc", DType.obj), ("price", DType.obj)],
   [[Value.str "u1", Value.num 10, Value.num 2, Value.str "d1", Value.num 1],
    [Value.str "u2", Value.num 20, Value.num 3, Value.str "d2", Value.num 2]]⟩

/-- Frame with numeric floors 1 and 40, for the C4 witness. -/
def floorScenarioDf : DataFrame :=
  ⟨[("floor", DType.float64)], [[Value.num 1], [Value.num 40]]⟩

/-- Frame that still carries extra `url` and `desc` columns (feature
selection has not run), used against C5. -/
def ttsEarlyDf : DataFrame :=
  ⟨[("url", DType.obj), ("size", DType.obj), ("desc", DType.obj), ("price", DType.obj)],
   [[Value.str "u1", Value.num 10, Value.str "d1", Value.num 1],
    [Value.str "u2", Value.num 20, Value.str "d2", Value.num 2]]⟩

/-- Argument frame whose numeric column holds a string, so that coercion
changes it, used against C6. -/
def castArgDf : DataFrame := ⟨[("a", DType.obj)], [[Value.str "1"]]⟩

/-- The triple returned by the C6 witness call: result, argument after the
call, untouched owned frame. -/
def castOutTriple : DataFrame × DataFrame × DataFrame :=
  (⟨[("a", DType.float64)], [[Value.num 1]]⟩,
    ⟨[("a", DType.float64)], [[Value.num 1]]⟩, ⟨[], []⟩)

/-- The ten-row scenario frame: rows 0-7 pairwise distinct, row 8 an exact
duplicate of row 0, row 9 with a missing `size`. -/
def missingScenarioDf : DataFrame :=
  ⟨[("floor", DType.obj), ("status", DType.obj), ("property_type", DType.obj),
    ("rooms", DType.obj), ("year_built", DType.obj), ("property_condition", DType.obj),
    ("price", DType.obj), ("size", DType.obj)],
   [[Value.num 1, Value.str "s", Value.str "t", Value.num 2, Value.num 2000,
     Value.str "c", Value.num 100, Value.num 50],
    [Value.num 1, Value.str "s", Value.str "t", Value.num 2, Value.num 2000,
     Value.str "c", Value.num 101, Value.num 50],
    [Value.num 1, Value.str "s", Value.str "t", Value.num 2, Value.num 2000,
     Value.str "c", Value.num 102, Value.num 50],
    [Value.num 1, Value.str "s", Value.str "t", Value.num 2, Value.num 2000,
     Value.str "c", Value.num 103, Value.num 50],
    [Value.num 1, Value.str "s", Value.str "t", Value.num 2, Value.num 2000,
     Value.str "c", Value.num 104, Value.num 50],
    [Value.num 1, Value.str "s", Value.str "t", Value.num 2, Value.num 2000,
     Value.str "c", Value.num 105, Value.num 50],
    [Value.num 1, Value.str "s", Value.str "t", Value.num 2, Value.num 2000,
     Value.str "c", Value.num 106, Value.num 50],
    [Value.num 1, Value.str "s", Value.str "t", Value.num 2, Value.num 2000,
     Value.str "c", Value.num 107, Value.num 50],
    [Value.num 1, Value.str "s", Value.str "t", Value.num 2, Value.num 2000,
     Value.str "c", Value.num 100, Value.num 50],
    [Value.num 1, Value.str "s", Value.str "t", Value.num 2, Value.num 2000,
     Value.str "c", Value.num 200, Value.null]]⟩

/-- Three-row frame for the C8 witness. -/
def splitScenarioDf : DataFrame :=
  ⟨[("a", DType.obj), ("p", DType.obj)],
   [[Value.num 1, Value.num 10], [Value.num 2, Value.num 20],
    [Value.num 3, Value.num 30]]⟩

/-- Input frame for the C7 witness: one numeric column `a`, one
categorical column `b`. -/
def castScenarioDf : DataFrame :=
  ⟨[("a", DType.obj), ("b", DType.obj)], [[Value.num 1, Value.str "x"]]⟩

/-- Output of `_cast_types ["a"] ["b"]` on `castScenarioDf`. -/
def castScenarioOut : DataFrame :=
  ⟨[("a", DType.float64), ("b", DType.category)], [[Value.num 1, Value.str "x"]]⟩

/-- The values of the column at position `i`, top to bottom. -/
def colVals (df : DataFrame) (i : ℕ) : List Value := df.rows.map fun r => cellD r i

/-- Constant numeric column, used against C10. -/
def constColDf : DataFrame :=
  ⟨[("a", DType.obj)], [[Value.num 5], [Value.num 5]]⟩

/-- Mixed frame for the C10 witness: column `a` non-constant (values 1
and 3), column `b` constant (both cells 5). -/
def mixedStdDf : DataFrame :=
  ⟨[("a", DType.obj), ("b", DType.obj)],
   [[Value.num 1, Value.num 5], [Value.num 3, Value.num 5]]⟩

/-- `mixedStdDf` after standardization: column `a` at mean 0 and variance
1, column `b` overwritten with constant 0 (variance 0). -/
def mixedStdOut : DataFrame :=
  ⟨[("a", DType.float64), ("b", DType.float64)],
   [[Value.num (-1), Value.num 0], [Value.num 1, Value.num 0]]⟩

/-! ## Generic list and lookup lemmas, then the claim theorems -/

theorem getD_set_ne {α : Type} : ∀ (l : List α) (i j : ℕ) (v d : α), i ≠ j →
    (l.set i v).getD j d = l.getD j d := by
  intro l
  induction l with
  | nil => intro i j v d _; cases i <;> rfl
  | cons a t ih =>
    intro i j v d hij
    cases i with
    | zero =>
      cases j with
      | zero => exact absurd rfl hij
      | succ j => rfl
    | succ i =>
      cases j with
      | zero => rfl
      | succ j =>
        have : i ≠ j := fun h => hij (by rw [h])
        simpa [List.set, List.getD] using ih i j v d this

theorem getD_set_self {α : Type} : ∀ (l : List α) (i : ℕ) (v d : α), i < l.length →
    (l.set i v).getD i d = v := by
  intro l
  induction l with
  | nil => intro i v d h; simp at h
  | cons a t ih =>
    intro i v d h
    cases i with
    | zero => rfl
    | succ i => simpa [List.set, List.getD] using ih i v d (by simpa using h)

theorem getD_map_fst {α β : Type} : ∀ (l : List (α × β)) (i : ℕ) (d : α × β),
    (l.map Prod.fst).getD i d.1 = (l.getD i d).1 := by
  intro l
  induction l with
  | nil => intro i d; rfl
  | cons a t ih =>
    intro i d
    cases i with
    | zero => rfl
    | succ i => exact ih i d

theorem map_fst_set {α β : Type} : ∀ (l : List (α × β)) (i : ℕ) (d : α × β) (b : β),
    (l.set i ((l.getD i d).1, b)).map Prod.fst = l.map Prod.fst := by
  intro l
  induction l with
  | nil => intro i d b; rfl
  | cons a t ih =>
    intro i d b
    cases i with
    | zero => rfl
    | succ i => simpa [List.set, List.getD] using ih i d b

theorem colNames_mk_setDType (cols : List (String × DType)) (rows : List (List Value))
    (i : ℕ) (dt : DType) :
    colNames ⟨setDType cols i dt, rows⟩ = cols.map Prod.fst := by
  simpa [colNames, setDType] using map_fst_set cols i ("", DType.obj) dt

theorem colIdx_congr_names (df₁ df₂ : DataFrame) (n : String)
    (h : colNames df₁ = colNames df₂) : colIdx df₁ n = colIdx df₂ n := by
  simp [colIdx, h]

theorem idxOfName_lt : ∀ (l : List String) (n : String) (i : ℕ),
    idxOfName l n = some i → i < l.length := by
  intro l
  induction l with
  | nil => intro n i h; simp [idxOfName] at h
  | cons c cs ih =>
    intro n i h
    by_cases hc : c = n
    · simp [idxOfName, hc] at h
      simp [List.length_cons]
      omega
    · simp [idxOfName, hc] at h
      rcases h with ⟨j, hj, rfl⟩
      have := ih n j hj
      simpa using Nat.succ_lt_succ this

theorem idxOfName_getD : ∀ (l : List String) (n : String) (i : ℕ),
    idxOfName l n = some i → l.getD i "" = n := by
  intro l
  induction l with
  | nil => intro n i h; simp [idxOfName] at h
  | cons c cs ih =>
    intro n i h
    by_cases hc : c = n
    · simp [idxOfName, hc] at h
      simp [← h, List.getD, hc]
    · simp [idxOfName, hc] at h
      rcases h with ⟨j, hj, rfl⟩
      simpa [List.getD] using ih n j hj

theorem idxOfName_ne_names (l : List String) (n m : String) (i j : ℕ)
    (hnm : n ≠ m) (hn : idxOfName l n = some i) (hm : idxOfName l m = some j) :
    i ≠ j := by
  intro hij
  apply hnm
  have h1 := idxOfName_getD l n i hn
  have h2 := idxOfName_getD l m j hm
  rw [← h1, ← h2, hij]

theorem map_getD_range {α : Type} (d : α) : ∀ (l : List α),
    (List.range l.length).map (fun i => l.getD i d) = l := by
  intro l
  induction l with
  | nil => rfl
  | cons a t ih =>
    have hr : List.range (a :: t).length = 0 :: (List.range t.length).map Nat.succ := by
      simpa using List.range_succ_eq_map t.length
    rw [hr, List.map_cons, List.map_map]
    refine congrArg (a :: ·) ?_
    have hfun : ((fun i => (a :: t).getD i d) ∘ Nat.succ) = fun i => t.getD i d := by
      funext i
      simp [List.getD]
    rw [hfun, ih]

theorem mapM_option_eq {α β : Type} (f : α → Option β) (d : β) :
    ∀ (l : List α) (xs : List β), l.mapM f = some xs →
      xs = l.map (fun a => (f a).getD d) ∧ ∀ a ∈ l, (f a).isSome := by
  intro l
  induction l with
  | nil =>
    intro xs h
    simp only [List.mapM_nil, pure, Option.some.injEq] at h
    simp [← h]
  | cons a t ih =>
    intro xs h
    simp only [List.mapM_cons] at h
    cases hfa : f a with
    | none => rw [hfa] at h; simp [bind] at h
    | some b =>
      rw [hfa] at h
      cases hmt : t.mapM f with
      | none => rw [hmt] at h; simp [bind] at h
      | some ys =>
        rw [hmt] at h
        simp only [Option.bind_eq_bind, Option.some_bind, pure, Option.some.injEq] at h
        rcases ih ys hmt with ⟨hys, hall⟩
        constructor
        · simp [← h, hfa, hys]
        · intro x hx
          rcases List.mem_cons.mp hx with rfl | hx
          · simp [hfa]
          · exact hall x hx

theorem getD_default_irrel {α : Type} : ∀ (l : List α) (i : ℕ) (d₁ d₂ : α),
    i < l.length → l.getD i d₁ = l.getD i d₂ := by
  intro l
  induction l with
  | nil => intro i d₁ d₂ h; simp at h
  | cons a t ih =>
    intro i d₁ d₂ h
    cases i with
    | zero => rfl
    | succ i => simpa [List.getD] using ih i d₁ d₂ (by simpa using h)

theorem cellD_eq_null_of_le (r : List Value) : ∀ (i : ℕ), r.length ≤ i →
    cellD r i = Value.null := by
  induction r with
  | nil => intro i _; cases i <;> rfl
  | cons a t ih =>
    intro i h
    cases i with
    | zero => simp at h
    | succ i => simpa [cellD, List.getD] using ih i (by simpa using h)

theorem cellD_ne_null_lt (r : List Value) (i : ℕ) (h : cellD r i ≠ Value.null) :
    i < r.length := by
  by_contra hn
  exact h (cellD_eq_null_of_le r i (Nat.le_of_not_lt hn))

theorem except_bind_ok {ε α β : Type} (a : α) (f : α → Except ε β) :
    (Except.ok a : Except ε α) >>= f = f a := rfl

theorem floatOfValue_of_toNumQ (v : Value) (h : (toNumQ v).isSome) :
    floatOfValue v = some (Value.num ((toNumQ v).getD 0)) := by
  cases v with
  | null => simp [toNumQ] at h
  | num q => rfl
  | str s =>
    cases hp : parseRatString s with
    | none => simp [toNumQ, hp] at h
    | some q => simp [toNumQ, floatOfValue, hp]

theorem colDType_mk_setDType_self (cols : List (String × DType))
    (rows : List (List Value)) (i : ℕ) (dt : DType) (h : i < cols.length) :
    colDType ⟨setDType cols i dt, rows⟩ i = dt := by
  simp only [colDType, setDType]
  rw [getD_set_self]
  simpa using h

/-- C1: `run_preprocessing_pipeline(cast_types, standardize)` is exactly the
chain optional `_cast_types`, `_process_price` at `17500000.0`,
`_process_size` at `1000.0`, `_process_floor` at `30.0`, optional
`_standardize`, then `_select_features`, in that order; and it does not
invoke `_handle_missing_and_duplicated_values`: on a frame with a
duplicated row the pipeline keeps both copies (2 rows), while running the
cleanup step first would leave 1 row. -/
theorem c1_run_preprocessing_pipeline_order :
    (∀ (nf cf fc : List String) (tc : String) (sq : ℚ → ℚ) (df : DataFrame)
        (ct st : Bool),
      run_preprocessing_pipeline nf cf fc tc sq df ct st =
        (if ct then _cast_types nf cf df else Except.ok df).bind fun d1 =>
          (_process_price d1 17500000).bind fun d2 =>
            (_process_size d2 1000).bind fun d3 =>
              (_process_floor d3 30).bind fun d4 =>
                (if st then _standardize sq nf d4 else Except.ok d4).bind fun d5 =>
                  _select_features fc tc d5) ∧
    (run_preprocessing_pipeline [] [] ["size"] "price" id pipelineDupDf false false).map
        (fun d => d.rows.length) = Except.ok 2 ∧
    ((_handle_missing_and_duplicated_values pipelineDupDf).bind fun d =>
        run_preprocessing_pipeline [] [] ["size"] "price" id d false false).map
        (fun d => d.rows.length) = Except.ok 1 := by
  refine ⟨fun nf cf fc tc sq df ct st => ?_, rfl, rfl⟩
  cases ct <;> cases st <;>
    simp only [run_preprocessing_pipeline, Bool.false_eq_true, if_false, if_true,
      bind, Except.bind]

/-- C2: `_process_price` never raises when a `price` column exists: it keeps
exactly the rows whose `price` coerces to a number, overwrites `price`
with the parsed float, and applies the strict `< filter_price` cut only
when `filter_price > 0` (a threshold of `0.0` or less applies no cut). -/
theorem c2_process_price_spec (df : DataFrame) (fp : ℚ) (i : ℕ)
    (hi : colIdx df "price" = some i) :
    _process_price df fp = Except.ok
      ⟨setDType df.cols i DType.float64,
        ((df.rows.filter fun r => (toNumQ (cellD r i)).isSome).map fun r =>
            r.set i (Value.num ((toNumQ (cellD r i)).getD 0))).filter fun r =>
          decide (fp ≤ 0) || valLtB (cellD r i) fp⟩ := by
  have hlen : i < df.cols.length := by
    have := idxOfName_lt (colNames df) "price" i hi
    simpa [colNames] using this
  have h1 : filterToNumericMask df "price" =
      Except.ok ⟨df.cols, df.rows.filter fun r => (toNumQ (cellD r i)).isSome⟩ := by
    simp [filterToNumericMask, hi]
  have hidx1 : colIdx ⟨df.cols, df.rows.filter fun r => (toNumQ (cellD r i)).isSome⟩
      "price" = some i := hi
  have hall : (df.rows.filter fun r => (toNumQ (cellD r i)).isSome).all
      (fun r => (floatOfValue (cellD r i)).isSome) = true := by
    rw [List.all_eq_true]
    intro r hr
    have hmem := List.of_mem_filter hr
    rw [floatOfValue_of_toNumQ _ (by simpa using hmem)]
    rfl
  have hmapeq : ((df.rows.filter fun r => (toNumQ (cellD r i)).isSome).map fun r =>
        r.set i ((floatOfValue (cellD r i)).getD Value.null)) =
      ((df.rows.filter fun r => (toNumQ (cellD r i)).isSome).map fun r =>
        r.set i (Value.num ((toNumQ (cellD r i)).getD 0))) := by
    apply List.map_congr_left
    intro r hr
    have hmem := List.of_mem_filter hr
    rw [floatOfValue_of_toNumQ _ (by simpa using hmem)]
    rfl
  have h2 : castFloatCol ⟨df.cols, df.rows.filter fun r => (toNumQ (cellD r i)).isSome⟩
      "price" = Except.ok
      ⟨setDType df.cols i DType.float64,
        (df.rows.filter fun r => (toNumQ (cellD r i)).isSome).map fun r =>
          r.set i (Value.num ((toNumQ (cellD r i)).getD 0))⟩ := by
    simp only [castFloatCol, hidx1, hall, if_true]
    rw [hmapeq]
  have hnum : ∀ r ∈ (df.rows.filter fun r => (toNumQ (cellD r i)).isSome).map fun r =>
      r.set i (Value.num ((toNumQ (cellD r i)).getD 0)),
      cellD r i = Value.num ((toNumQ (cellD r i)).getD 0) ∨
        ∃ r₀, r = r₀.set i (Value.num ((toNumQ (cellD r₀ i)).getD 0)) ∧
          cellD r i = Value.num ((toNumQ (cellD r₀ i)).getD 0) := by
    intro r hr
    rcases List.mem_map.mp hr with ⟨r₀, hr₀, rfl⟩
    right
    refine ⟨r₀, rfl, ?_⟩
    have hr₀s := List.of_mem_filter hr₀
    have hne : cellD r₀ i ≠ Value.null := by
      intro hnull
      rw [hnull] at hr₀s
      simp [toNumQ] at hr₀s
    have hlt := cellD_ne_null_lt r₀ i hne
    exact getD_set_self r₀ i _ Value.null hlt
  unfold _process_price
  rw [h1, except_bind_ok, h2, except_bind_ok]
  by_cases hfp : fp > 0
  · rw [if_pos hfp]
    have hidx2 : colIdx ⟨setDType df.cols i DType.float64,
        (df.rows.filter fun r => (toNumQ (cellD r i)).isSome).map fun r =>
          r.set i (Value.num ((toNumQ (cellD r i)).getD 0))⟩ "price" = some i := by
      have hnm := colNames_mk_setDType df.cols
        ((df.rows.filter fun r => (toNumQ (cellD r i)).isSome).map fun r =>
          r.set i (Value.num ((toNumQ (cellD r i)).getD 0))) i DType.float64
      unfold colIdx
      rw [hnm]
      exact hi
    have hdt : colDType ⟨setDType df.cols i DType.float64,
        (df.rows.filter fun r => (toNumQ (cellD r i)).isSome).map fun r =>
          r.set i (Value.num ((toNumQ (cellD r i)).getD 0))⟩ i = DType.float64 :=
      colDType_mk_setDType_self df.cols _ i DType.float64 hlen
    have hstr : ((df.rows.filter fun r => (toNumQ (cellD r i)).isSome).map fun r =>
        r.set i (Value.num ((toNumQ (cellD r i)).getD 0))).any
        (fun r => isStrV (cellD r i)) = false := by
      rw [List.any_eq_false]
      intro r hr
      rcases hnum r hr with hcell | ⟨r₀, _, hcell⟩ <;> rw [hcell] <;> simp [isStrV]
    simp only [filterLt, hidx2, hdt, hstr]
    simp only [reduceCtorEq, if_false, Bool.false_eq_true]
    refine congrArg Except.ok ?_
    refine congrArg (DataFrame.mk _) ?_
    apply List.filter_congr
    intro r hr
    have : decide (fp ≤ 0) = false := by simpa using not_le.mpr hfp
    simp [this]
  · rw [if_neg hfp]
    refine congrArg Except.ok ?_
    refine congrArg (DataFrame.mk _) ?_
    have : decide (fp ≤ 0) = true := by simpa using not_lt.mp hfp
    rw [List.filter_congr (fun r _ => by simp [this] :
      ∀ r ∈ (df.rows.filter fun r => (toNumQ (cellD r i)).isSome).map fun r =>
        r.set i (Value.num ((toNumQ (cellD r i)).getD 0)),
        (decide (fp ≤ 0) || valLtB (cellD r i) fp) = true)]
    simp

/-- Witness for C2 at the spec scenario: `process_price(0)` keeps exactly 2
rows, with `price` cast to the floats `100000.0` and `250000.0`. -/
theorem c2_process_price_spec_witness :
    colIdx priceScenarioDf "price" = some 0 ∧
    _process_price priceScenarioDf 0 = Except.ok
      ⟨[("price", DType.float64)], [[Value.num 100000], [Value.num 250000]]⟩ := by
  constructor
  · rfl
  · rw [c2_process_price_spec priceScenarioDf 0 0 rfl]
    rfl

theorem projectCols_spec (df : DataFrame) (ns : List String)
    (h : ∀ n ∈ ns, (colIdx df n).isSome) :
    projectCols df ns = Except.ok
      ⟨ns.map fun n => df.cols.getD ((colIdx df n).getD 0) (n, DType.obj),
        df.rows.map fun r => ns.map fun n => cellD r ((colIdx df n).getD 0)⟩ ∧
    (ns.map fun n => df.cols.getD ((colIdx df n).getD 0) (n, DType.obj)).map
      Prod.fst = ns := by
  have hall : ns.all (fun n => (colIdx df n).isSome) = true := by
    rw [List.all_eq_true]
    intro n hn
    simpa using h n hn
  constructor
  · simp only [projectCols, hall, if_true]
  · rw [List.map_map]
    have hpt : ∀ n ∈ ns,
        (Prod.fst ∘ fun n => df.cols.getD ((colIdx df n).getD 0) (n, DType.obj)) n = n := by
      intro n hn
      have hs := h n hn
      rcases Option.isSome_iff_exists.mp hs with ⟨j, hj⟩
      have hj1 := idxOfName_lt (colNames df) n j hj
      have hj2 := idxOfName_getD (colNames df) n j hj
      have hlen : j < df.cols.length := by simpa [colNames] using hj1
      have hfst : (df.cols.getD j (n, DType.obj)).1 = n := by
        have hmap := getD_map_fst df.cols j (n, DType.obj)
        have hirr : (df.cols.map Prod.fst).getD j n = (df.cols.map Prod.fst).getD j "" := by
          apply getD_default_irrel
          simpa using hlen
        rw [← hmap, hirr]
        exact hj2
      simp only [Function.comp, hj, Option.getD_some]
      exact hfst
    calc (ns.map
            (Prod.fst ∘ fun n => df.cols.getD ((colIdx df n).getD 0) (n, DType.obj)))
        = ns.map id := List.map_congr_left hpt
      _ = ns := List.map_id _

/-- C9: when every column of `FEAT_COLS ++ [TARGET_COL]` is present,
`_select_features` succeeds and the surviving columns are exactly
`FEAT_COLS` in order followed by `TARGET_COL`, with every row projected
onto those columns; all other columns are discarded. -/
theorem c9_select_features_spec (fc : List String) (tc : String) (df : DataFrame)
    (h : ∀ n ∈ fc ++ [tc], (colIdx df n).isSome) :
    ∃ df', _select_features fc tc df = Except.ok df' ∧
      colNames df' = fc ++ [tc] ∧
      df'.rows = df.rows.map fun r =>
        (fc ++ [tc]).map fun n => cellD r ((colIdx df n).getD 0) := by
  rcases projectCols_spec df (fc ++ [tc]) h with ⟨hok, hnames⟩
  exact ⟨_, hok, hnames, rfl⟩

/-- Witness for C9 on a concrete frame with extra `url` and `desc`
columns. -/
theorem c9_select_features_spec_witness :
    (∀ n ∈ ["size", "rooms"] ++ ["price"], (colIdx selectScenarioDf n).isSome) ∧
    ∃ df', _select_features ["size", "rooms"] "price" selectScenarioDf = Except.ok df' ∧
      colNames df' = ["size", "rooms"] ++ ["price"] ∧
      df'.rows = selectScenarioDf.rows.map fun r =>
        (["size", "rooms"] ++ ["price"]).map fun n =>
          cellD r ((colIdx selectScenarioDf n).getD 0) :=
  ⟨by decide, c9_select_features_spec ["size", "rooms"] "price" selectScenarioDf (by decide)⟩

/-- Counterexample to C4: a frame in which `floor` holds the
`"brak informacji"` sentinel makes `_process_floor 30` raise `TypeError`
(Python cannot compare `str` with `float`), so the comparison is not
well-defined for every row. -/
theorem c4_process_floor_counterexample :
    _process_floor ⟨[("floor", DType.obj)], [[Value.str "brak informacji"]]⟩ 30 =
      Except.error "TypeError" := rfl

/-- C4 (amended): when `filter_floor > 0`, a `floor` column exists, is not
categorical-typed, and none of its cells is a string (so the vectorized
comparison is defined), `_process_floor` keeps exactly the rows with
`floor < filter_floor`, and afterwards every row has a numeric floor
strictly below the threshold; rows with a string floor (such as the
`"no information"` sentinel) instead make the operation raise. -/
theorem c4_process_floor_amended (df : DataFrame) (ff : ℚ) (i : ℕ)
    (hff : 0 < ff) (hi : colIdx df "floor" = some i)
    (hdt : colDType df i ≠ DType.category)
    (hstr : ∀ r ∈ df.rows, isStrV (cellD r i) = false) :
    _process_floor df ff =
      Except.ok ⟨df.cols, df.rows.filter fun r => valLtB (cellD r i) ff⟩ ∧
    ∀ r ∈ df.rows.filter (fun r => valLtB (cellD r i) ff),
      ∃ q, cellD r i = Value.num q ∧ q < ff := by
  have hany : (df.rows.any fun r => isStrV (cellD r i)) = false := by
    rw [List.any_eq_false]
    intro r hr
    simp [hstr r hr]
  constructor
  · simp only [_process_floor, filterLt, hi]
    rw [if_pos hff, if_neg hdt, hany]
    simp
  · intro r hr
    have hmem := List.of_mem_filter hr
    have hin := List.mem_of_mem_filter hr
    cases hv : cellD r i with
    | null => rw [hv] at hmem; simp [valLtB] at hmem
    | str s =>
      have hf := hstr r hin
      rw [hv] at hf
      simp [isStrV] at hf
    | num q =>
      rw [hv] at hmem
      exact ⟨q, rfl, by simpa [valLtB] using hmem⟩

/-- Witness for the amended C4 at a concrete frame: the floor filter at 30
keeps the floor-1 row and drops the floor-40 row. -/
theorem c4_process_floor_amended_witness :
    ((0 : ℚ) < 30 ∧ colIdx floorScenarioDf "floor" = some 0 ∧
      colDType floorScenarioDf 0 ≠ DType.category ∧
      ∀ r ∈ floorScenarioDf.rows, isStrV (cellD r 0) = false) ∧
    (_process_floor floorScenarioDf 30 =
        Except.ok ⟨floorScenarioDf.cols,
          floorScenarioDf.rows.filter fun r => valLtB (cellD r 0) 30⟩ ∧
      ∀ r ∈ floorScenarioDf.rows.filter (fun r => valLtB (cellD r 0) 30),
        ∃ q, cellD r 0 = Value.num q ∧ q < 30) :=
  ⟨⟨by decide, rfl, by decide, by decide⟩,
    c4_process_floor_amended floorScenarioDf 30 0 (by decide) rfl (by decide) (by decide)⟩

/-- Counterexample to C5: on a frame with extra columns and no prior
`_select_features`, `train_test_split` still returns feature frames whose
columns are exactly `FEAT_COLS` — the method itself projects
`self.df[FEAT_COLS]` — so the split does not operate on a wrong column
set. -/
theorem c5_train_test_split_counterexample :
    (train_test_split ["size"] "price" [0, 1] ttsEarlyDf).map
        (fun out => colNames out.1) = Except.ok ["size"] ∧
    (train_test_split ["size"] "price" [0, 1] ttsEarlyDf).map
        (fun out => colNames out.2.1) = Except.ok ["size"] := ⟨rfl, rfl⟩

/-- C5 (amended): `train_test_split` projects onto `FEAT_COLS` and
`TARGET_COL` itself, so for every frame in which those columns exist —
whether or not `_select_features` has run and regardless of extra
columns — the returned train and test feature frames have column list
exactly `FEAT_COLS`; when a needed column is missing the call raises
instead of producing wrong columns. -/
theorem c5_train_test_split_cols (fc : List String) (tc : String) (perm : List ℕ)
    (df : DataFrame) (hfc : ∀ n ∈ fc, (colIdx df n).isSome)
    (htc : (colIdx df tc).isSome) :
    ∃ out, train_test_split fc tc perm df = Except.ok out ∧
      colNames out.1 = fc ∧ colNames out.2.1 = fc := by
  rcases projectCols_spec df fc hfc with ⟨hok, hnames⟩
  rcases Option.isSome_iff_exists.mp htc with ⟨j, hj⟩
  have hsplit : train_test_split fc tc perm df = Except.ok
      (sk_train_test_split perm
        ⟨fc.map fun n => df.cols.getD ((colIdx df n).getD 0) (n, DType.obj),
          df.rows.map fun r => fc.map fun n => cellD r ((colIdx df n).getD 0)⟩
        (df.rows.map fun r => cellD r j)) := by
    unfold train_test_split
    rw [hok, except_bind_ok, hj]
  exact ⟨_, hsplit, hnames, hnames⟩

/-- Witness for the amended C5 on a frame that still has extra columns. -/
theorem c5_train_test_split_cols_witness :
    ((∀ n ∈ ["size"], (colIdx ttsEarlyDf n).isSome) ∧
      (colIdx ttsEarlyDf "price").isSome) ∧
    ∃ out, train_test_split ["size"] "price" [1, 0] ttsEarlyDf = Except.ok out ∧
      colNames out.1 = ["size"] ∧ colNames out.2.1 = ["size"] :=
  ⟨⟨by decide, by decide⟩,
    c5_train_test_split_cols ["size"] "price" [1, 0] ttsEarlyDf (by decide) (by decide)⟩

/-- Counterexample to C6: calling the staticmethod on `castArgDf` leaves the
caller's argument equal to the coerced frame, not to the original —
`df[col] = df[col].astype(float)` assigns in place on the argument — so
the caller's dataset is changed by the call. -/
theorem c6_static_cast_types_counterexample :
    static_cast_types_call ["a"] [] ⟨[], []⟩ castArgDf = Except.ok
      (⟨[("a", DType.float64)], [[Value.num 1]]⟩,
        ⟨[("a", DType.float64)], [[Value.num 1]]⟩, ⟨[], []⟩) ∧
    (⟨[("a", DType.float64)], [[Value.num 1]]⟩ : DataFrame) ≠ castArgDf :=
  ⟨rfl, by decide⟩

/-- C6 (amended): `static_cast_types` never touches the instance's owned
frame (a staticmethod has no access to it) and returns the coerced frame,
but it is not pure in its argument: the caller's frame after the call
equals the returned coerced frame, not the original. -/
theorem c6_static_cast_types_effect (nf cf : List String) (s d : DataFrame)
    (out : DataFrame × DataFrame × DataFrame)
    (h : static_cast_types_call nf cf s d = Except.ok out) :
    out.2.2 = s ∧ out.2.1 = out.1 ∧ static_cast_types nf cf d = Except.ok out.1 := by
  unfold static_cast_types_call at h
  cases hs : static_cast_types nf cf d with
  | error e => rw [hs] at h; simp [Except.map] at h
  | ok r =>
    rw [hs] at h
    simp only [Except.map, Except.ok.injEq] at h
    rw [← h]
    exact ⟨rfl, rfl, rfl⟩

/-- Witness for the amended C6 at a concrete call. -/
theorem c6_static_cast_types_effect_witness :
    castOutTriple.2.2 = (⟨[], []⟩ : DataFrame) ∧
    castOutTriple.2.1 = castOutTriple.1 ∧
    static_cast_types ["a"] [] castArgDf = Except.ok castOutTriple.1 :=
  c6_static_cast_types_effect ["a"] [] ⟨[], []⟩ castArgDf castOutTriple rfl

theorem fillnaCol_ok (cols : List (String × DType)) (rows : List (List Value))
    (n : String) (v : Value) (h : (colIdx ⟨cols, rows⟩ n).isSome) :
    ∃ rows₂, fillnaCol ⟨cols, rows⟩ n v = Except.ok ⟨cols, rows₂⟩ := by
  rcases Option.isSome_iff_exists.mp h with ⟨i, hi⟩
  refine ⟨rows.map fun r =>
      r.set i (match cellD r i with | Value.null => v | w => w), ?_⟩
  simp only [fillnaCol, hi]

theorem filterNotna_ok (df : DataFrame) (n : String) (i : ℕ)
    (hi : colIdx df n = some i) :
    filterNotna df n =
      Except.ok ⟨df.cols, df.rows.filter fun r => notNullB (cellD r i)⟩ := by
  simp [filterNotna, hi]

/-- C3: `_handle_missing_and_duplicated_values` — fills, then duplicate
removal, then the `price`/`size` completeness drops, in source order —
succeeds whenever the touched columns exist (in particular it raises no
error when they are already complete), and afterwards no row has a
missing `price` or `size`; on the ten-row scenario frame with one exact
duplicate and one missing `size` it leaves 8 rows. -/
theorem c3_handle_missing_spec :
    (∀ df : DataFrame,
      (∀ n ∈ ["floor", "status", "property_type", "rooms", "year_built",
          "property_condition", "price", "size"], (colIdx df n).isSome) →
      ∃ df', _handle_missing_and_duplicated_values df = Except.ok df' ∧
        df'.cols = df.cols ∧
        ∀ r ∈ df'.rows,
          notNullB (cellD r ((colIdx df "price").getD 0)) = true ∧
          notNullB (cellD r ((colIdx df "size").getD 0)) = true) ∧
    (_handle_missing_and_duplicated_values missingScenarioDf).map
      (fun d => d.rows.length) = Except.ok 8 := by
  constructor
  · intro df h
    obtain ⟨cols, rows⟩ := df
    obtain ⟨r1, e1⟩ := fillnaCol_ok cols rows "floor" (Value.str "brak informacji")
      (h "floor" (by simp))
    obtain ⟨r2, e2⟩ := fillnaCol_ok cols r1 "status" (Value.str "brak informacji")
      (h "status" (by simp))
    obtain ⟨r3, e3⟩ := fillnaCol_ok cols r2 "property_type"
      (Value.str "brak informacji") (h "property_type" (by simp))
    obtain ⟨r4, e4⟩ := fillnaCol_ok cols r3 "rooms" (Value.num 1)
      (h "rooms" (by simp))
    obtain ⟨r5, e5⟩ := fillnaCol_ok cols r4 "year_built"
      (Value.str "brak informacji") (h "year_built" (by simp))
    obtain ⟨r6, e6⟩ := fillnaCol_ok cols r5 "property_condition"
      (Value.str "brak informacji") (h "property_condition" (by simp))
    obtain ⟨ip, hip⟩ := Option.isSome_iff_exists.mp (h "price" (by simp))
    obtain ⟨is, his⟩ := Option.isSome_iff_exists.mp (h "size" (by simp))
    have e8 : filterNotna (drop_duplicates ⟨cols, r6⟩) "price" =
        Except.ok ⟨cols, (dedupAux [] r6).filter fun r => notNullB (cellD r ip)⟩ :=
      filterNotna_ok (drop_duplicates ⟨cols, r6⟩) "price" ip hip
    have e9 : filterNotna
        ⟨cols, (dedupAux [] r6).filter fun r => notNullB (cellD r ip)⟩ "size" =
        Except.ok ⟨cols, ((dedupAux [] r6).filter fun r => notNullB (cellD r ip)).filter
          fun r => notNullB (cellD r is)⟩ :=
      filterNotna_ok _ "size" is his
    refine ⟨⟨cols, ((dedupAux [] r6).filter fun r => notNullB (cellD r ip)).filter
        fun r => notNullB (cellD r is)⟩, ?_, rfl, ?_⟩
    · unfold _handle_missing_and_duplicated_values
      rw [e1, except_bind_ok, e2, except_bind_ok, e3, except_bind_ok, e4,
        except_bind_ok, e5, except_bind_ok, e6, except_bind_ok]
      show filterNotna (drop_duplicates ⟨cols, r6⟩) "price" >>= _ = _
      rw [e8, except_bind_ok, e9]
    · intro r hr
      rw [hip, his]
      have hs := List.of_mem_filter hr
      have hr8 := List.mem_of_mem_filter hr
      have hp := List.of_mem_filter hr8
      exact ⟨hp, hs⟩
  · rfl

/-- C8: modelled from the spec for the sklearn call (`test_size=0.2,
random_state=42, shuffle=True`): with the seed-determined shuffle `perm`
(any permutation of the row indices — the fixed seed makes it, and hence
the whole result, the same on every invocation on the same data),
`train_test_split` returns four objects, the holdout taking
`ceil(0.2 * n)` rows and the training part the remaining 80%, and
together the two parts are a permutation of the projected data — an
80/20 partition. -/
theorem c8_train_test_split_spec (fc : List String) (tc : String) (perm : List ℕ)
    (df : DataFrame) (j : ℕ)
    (hperm : perm.Perm (List.range df.rows.length))
    (hfc : ∀ n ∈ fc, (colIdx df n).isSome)
    (htc : colIdx df tc = some j) :
    ∃ Xtr Xte ytr yte,
      train_test_split fc tc perm df = Except.ok (Xtr, Xte, ytr, yte) ∧
      Xte.rows.length = nTestOf df.rows.length ∧
      Xtr.rows.length = df.rows.length - nTestOf df.rows.length ∧
      yte.length = nTestOf df.rows.length ∧
      ytr.length = df.rows.length - nTestOf df.rows.length ∧
      (Xtr.rows ++ Xte.rows).Perm
        (df.rows.map fun r => fc.map fun n => cellD r ((colIdx df n).getD 0)) ∧
      (ytr ++ yte).Perm (df.rows.map fun r => cellD r j) := by
  rcases projectCols_spec df fc hfc with ⟨hok, _⟩
  have hsplit : train_test_split fc tc perm df = Except.ok
      (sk_train_test_split perm
        ⟨fc.map fun n => df.cols.getD ((colIdx df n).getD 0) (n, DType.obj),
          df.rows.map fun r => fc.map fun n => cellD r ((colIdx df n).getD 0)⟩
        (df.rows.map fun r => cellD r j)) := by
    unfold train_test_split
    rw [hok, except_bind_ok, htc]
  set n := df.rows.length with hn
  set Xrows := df.rows.map fun r => fc.map fun n => cellD r ((colIdx df n).getD 0)
    with hXrows
  set y := df.rows.map fun r => cellD r j with hy
  have hXlen : Xrows.length = n := by rw [hXrows, hn]; exact List.length_map _ _
  have hylen : y.length = n := by rw [hy, hn]; exact List.length_map _ _
  have hplen : perm.length = n := by
    have := hperm.length_eq
    simpa [List.length_range] using this
  have hk : nTestOf n ≤ n := by
    unfold nTestOf
    omega
  have hdt : (perm.drop (nTestOf n) ++ perm.take (nTestOf n)).Perm
      (List.range n) := by
    refine List.Perm.trans ?_ hperm
    refine List.Perm.trans (List.perm_append_comm) ?_
    rw [List.take_append_drop]
  have hmain : ∀ (l : List (List Value)), l.length = n →
      ((perm.drop (nTestOf n) ++ perm.take (nTestOf n)).map
        (fun i => l.getD i [])).Perm l := by
    intro l hl
    have h1 := List.Perm.map (fun i => l.getD i []) hdt
    have h2 : (List.range n).map (fun i => l.getD i []) = l := by
      rw [← hl]
      exact map_getD_range [] l
    rw [h2] at h1
    exact h1
  have hmainy : ((perm.drop (nTestOf n) ++ perm.take (nTestOf n)).map
      (fun i => y.getD i Value.null)).Perm y := by
    have h1 := List.Perm.map (fun i => y.getD i Value.null) hdt
    have h2 : (List.range n).map (fun i => y.getD i Value.null) = y := by
      rw [← hylen]
      exact map_getD_range Value.null y
    rw [h2] at h1
    exact h1
  refine ⟨_, _, _, _, hsplit, ?_, ?_, ?_, ?_, ?_, ?_⟩
  · show ((perm.take (nTestOf Xrows.length)).map fun i => Xrows.getD i []).length
      = nTestOf n
    rw [List.length_map, List.length_take, hXlen, hplen]
    exact Nat.min_eq_left hk
  · show ((perm.drop (nTestOf Xrows.length)).map fun i => Xrows.getD i []).length
      = n - nTestOf n
    rw [List.length_map, List.length_drop, hXlen, hplen]
  · show ((perm.take (nTestOf Xrows.length)).map fun i => y.getD i Value.null).length
      = nTestOf n
    rw [List.length_map, List.length_take, hXlen, hplen]
    exact Nat.min_eq_left hk
  · show ((perm.drop (nTestOf Xrows.length)).map fun i => y.getD i Value.null).length
      = n - nTestOf n
    rw [List.length_map, List.length_drop, hXlen, hplen]
  · show ((perm.drop (nTestOf Xrows.length)).map (fun i => Xrows.getD i []) ++
      (perm.take (nTestOf Xrows.length)).map fun i => Xrows.getD i []).Perm Xrows
    rw [← List.map_append, hXlen]
    exact hmain Xrows hXlen
  · show ((perm.drop (nTestOf Xrows.length)).map (fun i => y.getD i Value.null) ++
      (perm.take (nTestOf Xrows.length)).map fun i => y.getD i Value.null).Perm y
    rw [← List.map_append, hXlen]
    exact hmainy

/-- Witness for C8 with the concrete shuffle `[2, 0, 1]` of three rows. -/
theorem c8_train_test_split_spec_witness :
    (([2, 0, 1] : List ℕ).Perm (List.range splitScenarioDf.rows.length) ∧
      (∀ n ∈ ["a"], (colIdx splitScenarioDf n).isSome) ∧
      colIdx splitScenarioDf "p" = some 1) ∧
    ∃ Xtr Xte ytr yte,
      train_test_split ["a"] "p" [2, 0, 1] splitScenarioDf =
        Except.ok (Xtr, Xte, ytr, yte) ∧
      Xte.rows.length = nTestOf splitScenarioDf.rows.length ∧
      Xtr.rows.length =
        splitScenarioDf.rows.length - nTestOf splitScenarioDf.rows.length ∧
      yte.length = nTestOf splitScenarioDf.rows.length ∧
      ytr.length =
        splitScenarioDf.rows.length - nTestOf splitScenarioDf.rows.length ∧
      (Xtr.rows ++ Xte.rows).Perm (splitScenarioDf.rows.map fun r =>
        (["a"] : List String).map fun n =>
          cellD r ((colIdx splitScenarioDf n).getD 0)) ∧
      (ytr ++ yte).Perm (splitScenarioDf.rows.map fun r => cellD r 1) :=
  ⟨⟨by decide, by decide, rfl⟩,
    c8_train_test_split_spec ["a"] "p" [2, 0, 1] splitScenarioDf 1
      (by decide) (by decide) rfl⟩

theorem except_bind_ok_iff {ε α β : Type} (x : Except ε α) (f : α → Except ε β)
    (b : β) : x >>= f = Except.ok b ↔ ∃ a, x = Except.ok a ∧ f a = Except.ok b := by
  cases x with
  | error e =>
    constructor
    · intro h; simp [bind, Except.bind] at h
    · intro ⟨a, ha, _⟩; cases ha
  | ok a =>
    constructor
    · intro h; exact ⟨a, rfl, h⟩
    · intro ⟨a₂, ha, hf⟩
      cases ha
      exact hf

theorem setDType_getD_self (cols : List (String × DType)) (i : ℕ) (dt : DType)
    (h : i < cols.length) : ((setDType cols i dt).getD i ("", DType.obj)).2 = dt := by
  unfold setDType
  rw [getD_set_self]
  simpa using h

theorem floatOfValue_shape (v w : Value) (h : floatOfValue v = some w) :
    w = Value.null ∨ ∃ q, w = Value.num q := by
  cases v with
  | null => left; cases h; rfl
  | num q => right; exact ⟨q, by cases h; rfl⟩
  | str s =>
    cases hp : parseRatString s with
    | none => rw [floatOfValue, hp] at h; cases h
    | some q =>
      right
      rw [floatOfValue, hp] at h
      exact ⟨q, by cases h; rfl⟩

theorem castFloatCol_shape (df df₂ : DataFrame) (c : String)
    (h : castFloatCol df c = Except.ok df₂) :
    ∃ i, colIdx df c = some i ∧
      df₂.cols = setDType df.cols i DType.float64 ∧
      df₂.rows = df.rows.map
        (fun r => r.set i ((floatOfValue (cellD r i)).getD Value.null)) ∧
      ∀ r ∈ df.rows, (floatOfValue (cellD r i)).isSome := by
  unfold castFloatCol at h
  split at h
  · cases h
  · rename_i i hc
    split at h
    · rename_i hall
      cases h
      exact ⟨i, hc, rfl, rfl, fun r hr => List.all_eq_true.mp hall r hr⟩
    · cases h

theorem castFloatCol_names (df df₂ : DataFrame) (c : String)
    (h : castFloatCol df c = Except.ok df₂) : colNames df₂ = colNames df := by
  rcases castFloatCol_shape df df₂ c h with ⟨i, _, hcols, _, _⟩
  show df₂.cols.map Prod.fst = df.cols.map Prod.fst
  rw [hcols]
  exact map_fst_set df.cols i ("", DType.obj) DType.float64

theorem castFloatCol_rows_len (df df₂ : DataFrame) (c : String)
    (h : castFloatCol df c = Except.ok df₂) : df₂.rows.length = df.rows.length := by
  rcases castFloatCol_shape df df₂ c h with ⟨i, _, _, hrows, _⟩
  rw [hrows, List.length_map]

theorem castFloatCol_self (df df₂ : DataFrame) (c : String) (i : ℕ)
    (h : castFloatCol df c = Except.ok df₂) (hi : colIdx df c = some i) :
    colDType df₂ i = DType.float64 ∧
    ∀ r ∈ df₂.rows, cellD r i = Value.null ∨ ∃ q, cellD r i = Value.num q := by
  rcases castFloatCol_shape df df₂ c h with ⟨i₂, hi₂, hcols, hrows, hall⟩
  rw [hi] at hi₂
  cases hi₂
  have hlen : i < df.cols.length := by
    have := idxOfName_lt (colNames df) c i hi
    simpa [colNames] using this
  constructor
  · show (df₂.cols.getD i ("", DType.obj)).2 = DType.float64
    rw [hcols]
    exact setDType_getD_self df.cols i DType.float64 hlen
  · intro r hr
    rw [hrows] at hr
    rcases List.mem_map.mp hr with ⟨r₀, hr₀, rfl⟩
    rcases Option.isSome_iff_exists.mp (hall r₀ hr₀) with ⟨w, hw⟩
    by_cases hp : i < r₀.length
    · have hcell : cellD (r₀.set i ((floatOfValue (cellD r₀ i)).getD Value.null)) i =
          (floatOfValue (cellD r₀ i)).getD Value.null :=
        getD_set_self r₀ i _ Value.null hp
      rw [hcell, hw]
      simpa using floatOfValue_shape (cellD r₀ i) w hw
    · left
      apply cellD_eq_null_of_le
      rw [List.length_set]
      omega

theorem castFloatCol_preserve (df df₂ : DataFrame) (c : String) (j : ℕ)
    (h : castFloatCol df c = Except.ok df₂) (hj : colIdx df c ≠ some j) :
    colDType df₂ j = colDType df j ∧
    df₂.rows.map (fun r => cellD r j) = df.rows.map fun r => cellD r j := by
  rcases castFloatCol_shape df df₂ c h with ⟨i, hi, hcols, hrows, _⟩
  have hij : i ≠ j := fun he => hj (he ▸ hi)
  constructor
  · show (df₂.cols.getD j ("", DType.obj)).2 = (df.cols.getD j ("", DType.obj)).2
    rw [hcols]
    unfold setDType
    rw [getD_set_ne df.cols i j _ _ hij]
  · rw [hrows, List.map_map]
    apply List.map_congr_left
    intro r _
    show cellD (r.set i ((floatOfValue (cellD r i)).getD Value.null)) j = cellD r j
    exact getD_set_ne r i j _ Value.null hij

theorem castCategoryCol_shape (df df₂ : DataFrame) (c : String)
    (h : castCategoryCol df c = Except.ok df₂) :
    ∃ i, colIdx df c = some i ∧
      df₂.cols = setDType df.cols i DType.category ∧ df₂.rows = df.rows := by
  unfold castCategoryCol at h
  split at h
  · cases h
  · rename_i i hc
    cases h
    exact ⟨i, hc, rfl, rfl⟩

theorem castCategoryCol_names (df df₂ : DataFrame) (c : String)
    (h : castCategoryCol df c = Except.ok df₂) : colNames df₂ = colNames df := by
  rcases castCategoryCol_shape df df₂ c h with ⟨i, _, hcols, _⟩
  show df₂.cols.map Prod.fst = df.cols.map Prod.fst
  rw [hcols]
  exact map_fst_set df.cols i ("", DType.obj) DType.category

theorem castCategoryCol_self (df df₂ : DataFrame) (c : String) (i : ℕ)
    (h : castCategoryCol df c = Except.ok df₂) (hi : colIdx df c = some i) :
    colDType df₂ i = DType.category := by
  rcases castCategoryCol_shape df df₂ c h with ⟨i₂, hi₂, hcols, _⟩
  rw [hi] at hi₂
  cases hi₂
  have hlen : i < df.cols.length := by
    have := idxOfName_lt (colNames df) c i hi
    simpa [colNames] using this
  show (df₂.cols.getD i ("", DType.obj)).2 = DType.category
  rw [hcols]
  exact setDType_getD_self df.cols i DType.category hlen

theorem castCategoryCol_preserve (df df₂ : DataFrame) (c : String) (j : ℕ)
    (h : castCategoryCol df c = Except.ok df₂) (hj : colIdx df c ≠ some j) :
    colDType df₂ j = colDType df j ∧
    df₂.rows.map (fun r => cellD r j) = df.rows.map fun r => cellD r j := by
  rcases castCategoryCol_shape df df₂ c h with ⟨i, hi, hcols, hrows⟩
  have hij : i ≠ j := fun he => hj (he ▸ hi)
  constructor
  · show (df₂.cols.getD j ("", DType.obj)).2 = (df.cols.getD j ("", DType.obj)).2
    rw [hcols]
    unfold setDType
    rw [getD_set_ne df.cols i j _ _ hij]
  · rw [hrows]

theorem col_vals_transfer (rows₂ rows₁ : List (List Value)) (i : ℕ)
    (hmap : rows₂.map (fun r => cellD r i) = rows₁.map fun r => cellD r i)
    (hgood : ∀ r ∈ rows₁, cellD r i = Value.null ∨ ∃ q, cellD r i = Value.num q) :
    ∀ r ∈ rows₂, cellD r i = Value.null ∨ ∃ q, cellD r i = Value.num q := by
  intro r hr
  have hmem : cellD r i ∈ rows₂.map (fun r => cellD r i) :=
    List.mem_map_of_mem _ hr
  rw [hmap] at hmem
  rcases List.mem_map.mp hmem with ⟨r₀, hr₀, he⟩
  rcases hgood r₀ hr₀ with h0 | ⟨q, hq⟩
  · left; rw [← he, h0]
  · right; exact ⟨q, by rw [← he, hq]⟩

theorem foldCol_names (op : DataFrame → String → Except String DataFrame)
    (hopn : ∀ df df₂ c, op df c = Except.ok df₂ → colNames df₂ = colNames df) :
    ∀ (ns : List String) (df df₂ : DataFrame),
      List.foldlM op df ns = Except.ok df₂ → colNames df₂ = colNames df := by
  intro ns
  induction ns with
  | nil =>
    intro df df₂ h
    simp only [List.foldlM_nil, pure, Except.pure] at h
    cases h
    rfl
  | cons c rest ih =>
    intro df df₂ h
    rw [List.foldlM_cons, except_bind_ok_iff] at h
    rcases h with ⟨d1, h1, h2⟩
    rw [ih d1 df₂ h2, hopn df d1 c h1]

theorem foldCol_preserve (op : DataFrame → String → Except String DataFrame)
    (hopn : ∀ df df₂ c, op df c = Except.ok df₂ → colNames df₂ = colNames df)
    (hopp : ∀ df df₂ c j, op df c = Except.ok df₂ → colIdx df c ≠ some j →
      colDType df₂ j = colDType df j ∧
      df₂.rows.map (fun r => cellD r j) = df.rows.map fun r => cellD r j) :
    ∀ (ns : List String) (df df₂ : DataFrame) (j : ℕ),
      List.foldlM op df ns = Except.ok df₂ →
      (∀ c ∈ ns, colIdx df c ≠ some j) →
      colDType df₂ j = colDType df j ∧
      df₂.rows.map (fun r => cellD r j) = df.rows.map fun r => cellD r j := by
  intro ns
  induction ns with
  | nil =>
    intro df df₂ j h _
    simp only [List.foldlM_nil, pure, Except.pure] at h
    cases h
    exact ⟨rfl, rfl⟩
  | cons c rest ih =>
    intro df df₂ j h hns
    rw [List.foldlM_cons, except_bind_ok_iff] at h
    rcases h with ⟨d1, h1, h2⟩
    have hstep := hopp df d1 c j h1 (hns c (by simp))
    have hcid : ∀ m, colIdx d1 m = colIdx df m := by
      intro m
      unfold colIdx
      rw [hopn df d1 c h1]
    have hrest : ∀ c' ∈ rest, colIdx d1 c' ≠ some j := by
      intro c' hc'
      rw [hcid c']
      exact hns c' (by simp [hc'])
    have hfold := ih d1 df₂ j h2 hrest
    exact ⟨hfold.1.trans hstep.1, hfold.2.trans hstep.2⟩

theorem foldCol_good (op : DataFrame → String → Except String DataFrame)
    (P : DType → List Value → Prop)
    (hopn : ∀ df df₂ c, op df c = Except.ok df₂ → colNames df₂ = colNames df)
    (hopp : ∀ df df₂ c j, op df c = Except.ok df₂ → colIdx df c ≠ some j →
      colDType df₂ j = colDType df j ∧
      df₂.rows.map (fun r => cellD r j) = df.rows.map fun r => cellD r j)
    (hsome : ∀ df df₂ c, op df c = Except.ok df₂ → (colIdx df c).isSome)
    (hself : ∀ df df₂ c i, op df c = Except.ok df₂ → colIdx df c = some i →
      P (colDType df₂ i) (df₂.rows.map fun r => cellD r i)) :
    ∀ (ns : List String) (df df₂ : DataFrame),
      List.foldlM op df ns = Except.ok df₂ →
      ∀ c ∈ ns, ∃ i, colIdx df c = some i ∧
        P (colDType df₂ i) (df₂.rows.map fun r => cellD r i) := by
  intro ns
  induction ns with
  | nil =>
    intro df df₂ h c hc
    simp at hc
  | cons c0 rest ih =>
    intro df df₂ h c hc
    rw [List.foldlM_cons, except_bind_ok_iff] at h
    rcases h with ⟨d1, h1, h2⟩
    have hcid : ∀ m, colIdx d1 m = colIdx df m := by
      intro m
      unfold colIdx
      rw [hopn df d1 c0 h1]
    rcases List.mem_cons.mp hc with rfl | hcr
    · by_cases hcrest : c ∈ rest
      · rcases ih d1 df₂ h2 c hcrest with ⟨i, hi, hP⟩
        rw [hcid c] at hi
        exact ⟨i, hi, hP⟩
      · rcases Option.isSome_iff_exists.mp (hsome df d1 c h1) with ⟨i, hi⟩
        have hP1 := hself df d1 c i h1 hi
        have hci1 : colIdx d1 c = some i := by rw [hcid c]; exact hi
        have hpres : ∀ c' ∈ rest, colIdx d1 c' ≠ some i := by
          intro c' hc' he
          have hne : c' ≠ c := fun hq => hcrest (hq ▸ hc')
          exact absurd rfl (idxOfName_ne_names (colNames d1) c' c i i hne he hci1)
        have hfp := foldCol_preserve op hopn hopp rest d1 df₂ i h2 hpres
        refine ⟨i, hi, ?_⟩
        rw [hfp.1, hfp.2]
        exact hP1
    · rcases ih d1 df₂ h2 c hcr with ⟨i, hi, hP⟩
      rw [hcid c] at hi
      exact ⟨i, hi, hP⟩

theorem castFloatCol_isSome (df df₂ : DataFrame) (c : String)
    (h : castFloatCol df c = Except.ok df₂) : (colIdx df c).isSome := by
  rcases castFloatCol_shape df df₂ c h with ⟨i, hi, _⟩
  rw [hi]
  rfl

theorem castCategoryCol_isSome (df df₂ : DataFrame) (c : String)
    (h : castCategoryCol df c = Except.ok df₂) : (colIdx df c).isSome := by
  rcases castCategoryCol_shape df df₂ c h with ⟨i, hi, _⟩
  rw [hi]
  rfl

theorem castFloatCol_self_vals (df df₂ : DataFrame) (c : String) (i : ℕ)
    (h : castFloatCol df c = Except.ok df₂) (hi : colIdx df c = some i) :
    colDType df₂ i = DType.float64 ∧
    ∀ v ∈ df₂.rows.map (fun r => cellD r i),
      v = Value.null ∨ ∃ q, v = Value.num q := by
  rcases castFloatCol_self df df₂ c i h hi with ⟨hdt, hvals⟩
  refine ⟨hdt, ?_⟩
  intro v hv
  rcases List.mem_map.mp hv with ⟨r, hr, rfl⟩
  exact hvals r hr

/-- C7: the staticmethod and the instance method are one and the same
coercion (their bodies are identical, so on equal rows they produce
identical column types and values), and after either one every
`NUMERIC_FEATS`-only column is float-typed with purely numeric (or NaN)
cells while every `CATEGORICAL_FEATS` column is category-typed. -/
theorem c7_cast_types_agree :
    (∀ (nf cf : List String) (df : DataFrame),
      static_cast_types nf cf df = _cast_types nf cf df) ∧
    (∀ (nf cf : List String) (df df₂ : DataFrame),
      _cast_types nf cf df = Except.ok df₂ →
      (∀ c ∈ cf, ∃ i, colIdx df c = some i ∧ colDType df₂ i = DType.category) ∧
      (∀ c ∈ nf, c ∉ cf → ∃ i, colIdx df c = some i ∧
        colDType df₂ i = DType.float64 ∧
        ∀ v ∈ df₂.rows.map (fun r => cellD r i),
          v = Value.null ∨ ∃ q, v = Value.num q)) := by
  refine ⟨fun _ _ _ => rfl, fun nf cf df df₂ h => ?_⟩
  unfold _cast_types at h
  rw [except_bind_ok_iff] at h
  obtain ⟨d1, h1, h2⟩ := h
  have hnames1 : colNames d1 = colNames df :=
    foldCol_names _ castFloatCol_names nf df d1 h1
  have hcid : ∀ m, colIdx d1 m = colIdx df m := by
    intro m
    unfold colIdx
    rw [hnames1]
  constructor
  · intro c hc
    have hgood := foldCol_good castCategoryCol (fun dt _ => dt = DType.category)
      castCategoryCol_names castCategoryCol_preserve castCategoryCol_isSome
      (fun d d₂ c i hok hi => castCategoryCol_self d d₂ c i hok hi)
      cf d1 df₂ h2 c hc
    rcases hgood with ⟨i, hi, hP⟩
    rw [hcid c] at hi
    exact ⟨i, hi, hP⟩
  · intro c hc hnc
    have hgood := foldCol_good castFloatCol
      (fun dt vals => dt = DType.float64 ∧
        ∀ v ∈ vals, v = Value.null ∨ ∃ q, v = Value.num q)
      castFloatCol_names castFloatCol_preserve castFloatCol_isSome
      (fun d d₂ c i hok hi => castFloatCol_self_vals d d₂ c i hok hi)
      nf df d1 h1 c hc
    rcases hgood with ⟨i, hi, hdt1, hvals1⟩
    have hci1 : colIdx d1 c = some i := by rw [hcid c]; exact hi
    have hpres : ∀ c' ∈ cf, colIdx d1 c' ≠ some i := by
      intro c' hc' he
      have hne : c' ≠ c := fun hq => hnc (hq ▸ hc')
      exact absurd rfl (idxOfName_ne_names (colNames d1) c' c i i hne he hci1)
    have hfp := foldCol_preserve castCategoryCol castCategoryCol_names
      castCategoryCol_preserve cf d1 df₂ i h2 hpres
    refine ⟨i, hi, ?_, ?_⟩
    · rw [hfp.1]
      exact hdt1
    · rw [hfp.2]
      exact hvals1

/-- Witness for C7 on a concrete frame. -/
theorem c7_cast_types_agree_witness :
    _cast_types ["a"] ["b"] castScenarioDf = Except.ok castScenarioOut ∧
    ((∀ c ∈ ["b"], ∃ i, colIdx castScenarioDf c = some i ∧
        colDType castScenarioOut i = DType.category) ∧
      ∀ c ∈ ["a"], c ∉ ["b"] → ∃ i, colIdx castScenarioDf c = some i ∧
        colDType castScenarioOut i = DType.float64 ∧
        ∀ v ∈ castScenarioOut.rows.map (fun r => cellD r i),
          v = Value.null ∨ ∃ q, v = Value.num q) :=
  ⟨rfl, c7_cast_types_agree.2 ["a"] ["b"] castScenarioDf castScenarioOut rfl⟩

theorem standardizeOne_shape (sq : ℚ → ℚ) (df df₂ : DataFrame) (c : String)
    (h : standardizeOne sq df c = Except.ok df₂) :
    ∃ i xs, colIdx df c = some i ∧
      df.rows.mapM (fun r => asQ (cellD r i)) = some xs ∧
      ¬xs.length = 0 ∧
      df₂.cols = setDType df.cols i DType.float64 ∧
      df₂.rows = df.rows.map fun r => r.set i
        (Value.num ((qOf (cellD r i) - qmean xs) /
          (if sq (qvar xs) = 0 then 1 else sq (qvar xs)))) := by
  unfold standardizeOne at h
  split at h
  · cases h
  · rename_i i hc
    split at h
    · cases h
    · rename_i xs hxs
      split at h
      · cases h
      · rename_i hlen
        cases h
        exact ⟨i, xs, hc, hxs, hlen, rfl, rfl⟩

theorem standardizeOne_names (sq : ℚ → ℚ) (df df₂ : DataFrame) (c : String)
    (h : standardizeOne sq df c = Except.ok df₂) : colNames df₂ = colNames df := by
  rcases standardizeOne_shape sq df df₂ c h with ⟨i, xs, _, _, _, hcols, _⟩
  show df₂.cols.map Prod.fst = df.cols.map Prod.fst
  rw [hcols]
  exact map_fst_set df.cols i ("", DType.obj) DType.float64

theorem standardizeOne_isSome (sq : ℚ → ℚ) (df df₂ : DataFrame) (c : String)
    (h : standardizeOne sq df c = Except.ok df₂) : (colIdx df c).isSome := by
  rcases standardizeOne_shape sq df df₂ c h with ⟨i, xs, hi, _⟩
  rw [hi]
  rfl

theorem standardizeOne_preserve (sq : ℚ → ℚ) (df df₂ : DataFrame) (c : String)
    (j : ℕ) (h : standardizeOne sq df c = Except.ok df₂)
    (hj : colIdx df c ≠ some j) :
    colDType df₂ j = colDType df j ∧
    df₂.rows.map (fun r => cellD r j) = df.rows.map fun r => cellD r j := by
  rcases standardizeOne_shape sq df df₂ c h with ⟨i, xs, hi, _, _, hcols, hrows⟩
  have hij : i ≠ j := fun he => hj (he ▸ hi)
  constructor
  · show (df₂.cols.getD j ("", DType.obj)).2 = (df.cols.getD j ("", DType.obj)).2
    rw [hcols]
    unfold setDType
    rw [getD_set_ne df.cols i j _ _ hij]
  · rw [hrows, List.map_map]
    apply List.map_congr_left
    intro r _
    exact getD_set_ne r i j _ Value.null hij

theorem mapM_asQ_of_colVals : ∀ (rows : List (List Value)) (i : ℕ) (xs : List ℚ),
    rows.map (fun r => cellD r i) = xs.map Value.num →
    rows.mapM (fun r => asQ (cellD r i)) = some xs := by
  intro rows
  induction rows with
  | nil =>
    intro i xs h
    cases xs with
    | nil => rfl
    | cons x t => simp at h
  | cons r rs ih =>
    intro i xs h
    cases xs with
    | nil => simp at h
    | cons x t =>
      rw [List.map_cons, List.map_cons] at h
      have h1 : cellD r i = Value.num x := (List.cons.injEq _ _ _ _ ▸ h).1
      have h2 : rs.map (fun r => cellD r i) = t.map Value.num :=
        (List.cons.injEq _ _ _ _ ▸ h).2
      rw [List.mapM_cons, h1]
      rw [ih i t h2]
      rfl

theorem sum_map_sub_const (xs : List ℚ) (m : ℚ) :
    (xs.map fun x => x - m).sum = xs.sum - xs.length * m := by
  induction xs with
  | nil => simp
  | cons x t ih =>
    simp only [List.map_cons, List.sum_cons, List.length_cons, ih]
    push_cast
    ring

theorem sum_map_div_const (xs : List ℚ) (f : ℚ → ℚ) (s : ℚ) :
    (xs.map fun x => f x / s).sum = (xs.map f).sum / s := by
  induction xs with
  | nil => simp
  | cons x t ih =>
    simp only [List.map_cons, List.sum_cons, ih, add_div]

theorem length_cast_ne_zero (xs : List ℚ) (hne : xs ≠ []) :
    (xs.length : ℚ) ≠ 0 := by
  have : 0 < xs.length := List.length_pos.mpr hne
  exact_mod_cast Nat.pos_iff_ne_zero.mp this

theorem qmean_center_scale (xs : List ℚ) (s : ℚ) (hne : xs ≠ []) :
    qmean (xs.map fun x => (x - qmean xs) / s) = 0 := by
  have hn := length_cast_ne_zero xs hne
  have hz : (xs.map fun x => x - qmean xs).sum = 0 := by
    rw [sum_map_sub_const, qmean]
    field_simp
  rw [qmean, List.length_map, sum_map_div_const, hz, zero_div, zero_div]

theorem qvar_center_scale (xs : List ℚ) (s : ℚ) (hne : xs ≠ [])
    (hvar : qvar xs ≠ 0) (hs : s * s = qvar xs) :
    qvar (xs.map fun x => (x - qmean xs) / s) = 1 := by
  have hm := qmean_center_scale xs s hne
  unfold qvar
  rw [hm]
  simp only [sub_zero, List.map_map, List.length_map]
  have hpt : (((fun x => x * x) : ℚ → ℚ) ∘ fun x => (x - qmean xs) / s) =
      fun x => ((x - qmean xs) * (x - qmean xs)) / qvar xs := by
    funext x
    simp only [Function.comp, div_mul_div_comm, hs]
  calc (xs.map (((fun x => x * x) : ℚ → ℚ) ∘ fun x => (x - qmean xs) / s)).sum /
        (xs.length : ℚ)
      = (xs.map fun x => ((x - qmean xs) * (x - qmean xs)) / qvar xs).sum /
        (xs.length : ℚ) := by rw [hpt]
    _ = ((xs.map fun x => (x - qmean xs) * (x - qmean xs)).sum / qvar xs) /
        (xs.length : ℚ) := by rw [sum_map_div_const]
    _ = ((xs.map fun x => (x - qmean xs) * (x - qmean xs)).sum /
        (xs.length : ℚ)) / qvar xs := by rw [div_right_comm]
    _ = qvar xs / qvar xs := rfl
    _ = 1 := div_self hvar

theorem qmean_map_sub (xs : List ℚ) (m : ℚ) (hne : xs ≠ []) :
    qmean (xs.map fun x => x - m) = qmean xs - m := by
  have hn := length_cast_ne_zero xs hne
  unfold qmean
  rw [List.length_map, sum_map_sub_const, sub_div]
  congr 1
  exact mul_div_cancel_left₀ m hn

theorem qvar_map_sub (xs : List ℚ) (m : ℚ) (hne : xs ≠ []) :
    qvar (xs.map fun x => x - m) = qvar xs := by
  unfold qvar
  rw [qmean_map_sub xs m hne, List.length_map, List.map_map]
  have hfun : ((fun y => (y - (qmean xs - m)) * (y - (qmean xs - m))) ∘
      fun x => x - m) = fun x => (x - qmean xs) * (x - qmean xs) := by
    funext x
    simp only [Function.comp]
    ring
  rw [hfun]

theorem standardizeOne_good (sq : ℚ → ℚ) (df df₂ : DataFrame) (c : String) (i : ℕ)
    (xs : List ℚ) (h : standardizeOne sq df c = Except.ok df₂)
    (hi : colIdx df c = some i)
    (hvals : colVals df i = xs.map Value.num)
    (hsq : sq (qvar xs) * sq (qvar xs) = qvar xs) :
    ∃ ys, colVals df₂ i = ys.map Value.num ∧ qmean ys = 0 ∧
      (qvar xs ≠ 0 → qvar ys = 1) ∧ (qvar xs = 0 → qvar ys = 0) := by
  rcases standardizeOne_shape sq df df₂ c h with ⟨i₂, xs₂, hi₂, hmapM, hlen, _, hrows⟩
  rw [hi] at hi₂
  cases hi₂
  have hmapM2 : df.rows.mapM (fun r => asQ (cellD r i)) = some xs :=
    mapM_asQ_of_colVals df.rows i xs hvals
  rw [hmapM2] at hmapM
  cases hmapM
  have hne : xs ≠ [] := by
    intro he
    rw [he] at hlen
    exact hlen rfl
  unfold colVals at hvals
  refine ⟨xs.map fun x => (x - qmean xs) /
      (if sq (qvar xs) = 0 then 1 else sq (qvar xs)), ?_, ?_, ?_, ?_⟩
  · show df₂.rows.map (fun r => cellD r i) = _
    rw [hrows, List.map_map]
    have hpoint : ∀ r ∈ df.rows,
        ((fun r => cellD r i) ∘ fun r => r.set i
          (Value.num ((qOf (cellD r i) - qmean xs) /
            (if sq (qvar xs) = 0 then 1 else sq (qvar xs))))) r =
        (fun r => Value.num ((qOf (cellD r i) - qmean xs) /
          (if sq (qvar xs) = 0 then 1 else sq (qvar xs)))) r := by
      intro r hr
      have hv : cellD r i ∈ df.rows.map fun r => cellD r i := List.mem_map_of_mem _ hr
      rw [hvals] at hv
      rcases List.mem_map.mp hv with ⟨x, _, hx⟩
      have hnn : cellD r i ≠ Value.null := by
        rw [← hx]
        intro hq
        cases hq
      have hlt := cellD_ne_null_lt r i hnn
      show cellD (r.set i _) i = _
      unfold cellD
      rw [getD_set_self r i _ Value.null hlt]
    rw [List.map_congr_left hpoint]
    have hg := congrArg
      (List.map fun v => Value.num ((qOf v - qmean xs) /
        (if sq (qvar xs) = 0 then 1 else sq (qvar xs)))) hvals
    rw [List.map_map, List.map_map] at hg
    simp only [Function.comp, qOf] at hg
    rw [List.map_map]
    exact hg
  · exact qmean_center_scale xs _ hne
  · intro hvar
    have hsqne : sq (qvar xs) ≠ 0 := fun h0 => hvar (by rw [← hsq, h0, mul_zero])
    rw [if_neg hsqne]
    exact qvar_center_scale xs (sq (qvar xs)) hne hvar hsq
  · intro hvar
    have hsq0 : sq (qvar xs) = 0 := by
      have hz : sq (qvar xs) * sq (qvar xs) = 0 := by
        rw [hsq]
        exact hvar
      exact mul_self_eq_zero.mp hz
    rw [if_pos hsq0]
    have hdiv1 : (fun x => (x - qmean xs) / (1 : ℚ)) = fun x => x - qmean xs := by
      funext x
      rw [div_one]
    rw [hdiv1, qvar_map_sub xs (qmean xs) hne, hvar]

/-- C10 (amended): with the floating-point square root idealized as exact
(`sq` returns a true square root on the column variance), `_standardize`
acts column by column: every numeric-feature column that was numeric and
non-constant (nonzero variance) ends with mean exactly 0 and population
variance exactly 1, computed over the same rows the scaler was fitted on,
while a numeric constant column ends with mean 0 and variance 0, not 1
(sklearn replaces the zero scale by 1); a dataset may freely mix constant
and non-constant columns. -/
theorem c10_standardize_spec (sq : ℚ → ℚ) :
    ∀ (nf : List String) (df df₂ : DataFrame),
      nf.Nodup →
      _standardize sq nf df = Except.ok df₂ →
      ∀ c ∈ nf, ∀ i xs, colIdx df c = some i →
        colVals df i = xs.map Value.num →
        sq (qvar xs) * sq (qvar xs) = qvar xs →
        ∃ ys, colVals df₂ i = ys.map Value.num ∧ qmean ys = 0 ∧
          (qvar xs ≠ 0 → qvar ys = 1) ∧ (qvar xs = 0 → qvar ys = 0) := by
  intro nf
  induction nf with
  | nil =>
    intro df df₂ _ h c hcm
    simp at hcm
  | cons c0 rest ih =>
    intro df df₂ hnd h c hcm i xs hi hvals hsq
    unfold _standardize at h
    rw [List.foldlM_cons, except_bind_ok_iff] at h
    rcases h with ⟨d1, h1, h2⟩
    have hnames1 : colNames d1 = colNames df := standardizeOne_names sq df d1 c0 h1
    have hcid : ∀ m, colIdx d1 m = colIdx df m := by
      intro m
      unfold colIdx
      rw [hnames1]
    have hc0nr : c0 ∉ rest := (List.nodup_cons.mp hnd).1
    have hndr : rest.Nodup := (List.nodup_cons.mp hnd).2
    rcases List.mem_cons.mp hcm with rfl | hcr
    · rcases standardizeOne_good sq df d1 c i xs h1 hi hvals hsq with
        ⟨ys, hv1, hm, hone, hzero⟩
      have hci1 : colIdx d1 c = some i := by rw [hcid c]; exact hi
      have hpres : ∀ c' ∈ rest, colIdx d1 c' ≠ some i := by
        intro c' hc' he
        have hne : c' ≠ c := fun hq => hc0nr (hq ▸ hc')
        exact absurd rfl (idxOfName_ne_names (colNames d1) c' c i i hne he hci1)
      have hfp := foldCol_preserve (standardizeOne sq) (standardizeOne_names sq)
        (standardizeOne_preserve sq) rest d1 df₂ i h2 hpres
      refine ⟨ys, ?_, hm, hone, hzero⟩
      show df₂.rows.map (fun r => cellD r i) = _
      rw [hfp.2]
      exact hv1
    · have hne : c0 ≠ c := fun hq => hc0nr (hq ▸ hcr)
      have hnej : colIdx df c0 ≠ some i := by
        intro he
        exact absurd rfl (idxOfName_ne_names (colNames df) c0 c i i hne he hi)
      have hp := standardizeOne_preserve sq df d1 c0 i h1 hnej
      have hi1 : colIdx d1 c = some i := by rw [hcid c]; exact hi
      have hvals1 : colVals d1 i = xs.map Value.num := by
        show d1.rows.map (fun r => cellD r i) = _
        rw [hp.2]
        exact hvals
      exact ih d1 df₂ hndr h2 c hcr i xs hi1 hvals1 hsq

/-- Counterexample to C10 as stated: on a frame whose numeric column is
constant (every cell `5.0`), standardization succeeds (sklearn maps the
zero scale to 1) but leaves the column at `[0, 0]`, whose variance is 0,
not 1 — so not every numeric column ends with unit variance. -/
theorem c10_standardize_counterexample :
    _standardize id ["a"] constColDf =
      Except.ok ⟨[("a", DType.float64)], [[Value.num 0], [Value.num 0]]⟩ ∧
    colVals ⟨[("a", DType.float64)], [[Value.num 0], [Value.num 0]]⟩ 0 =
      ([0, 0] : List ℚ).map Value.num ∧
    qvar [0, 0] ≠ 1 := by
  refine ⟨?_, rfl, by norm_num [qvar, qmean]⟩
  have hm : qmean [(5 : ℚ), 5] = 5 := by norm_num [qmean]
  have hv : qvar [(5 : ℚ), 5] = 0 := by norm_num [qvar, hm]
  simp only [_standardize, List.foldlM, standardizeOne]
  norm_num [colIdx, colNames, idxOfName, cellD, asQ, qOf, hm, hv, setDType,
    List.mapM, List.mapM.loop, constColDf]

/-- Witness for the amended C10 on a mixed frame in one run: column `a`
(values 1 and 3, variance 1) ends standardized with mean 0 and variance 1
while the constant column `b` ends with mean 0 and variance 0. -/
theorem c10_standardize_spec_witness :
    ((["a", "b"] : List String).Nodup ∧
      _standardize id ["a", "b"] mixedStdDf = Except.ok mixedStdOut ∧
      colIdx mixedStdDf "a" = some 0 ∧
      colVals mixedStdDf 0 = ([1, 3] : List ℚ).map Value.num ∧
      id (qvar [(1 : ℚ), 3]) * id (qvar [(1 : ℚ), 3]) = qvar [(1 : ℚ), 3] ∧
      colIdx mixedStdDf "b" = some 1 ∧
      colVals mixedStdDf 1 = ([5, 5] : List ℚ).map Value.num ∧
      id (qvar [(5 : ℚ), 5]) * id (qvar [(5 : ℚ), 5]) = qvar [(5 : ℚ), 5]) ∧
    (∃ ys, colVals mixedStdOut 0 = ys.map Value.num ∧ qmean ys = 0 ∧
      (qvar [(1 : ℚ), 3] ≠ 0 → qvar ys = 1) ∧
      (qvar [(1 : ℚ), 3] = 0 → qvar ys = 0)) ∧
    ∃ ys, colVals mixedStdOut 1 = ys.map Value.num ∧ qmean ys = 0 ∧
      (qvar [(5 : ℚ), 5] ≠ 0 → qvar ys = 1) ∧
      (qvar [(5 : ℚ), 5] = 0 → qvar ys = 0) := by
  have hma : qmean [(1 : ℚ), 3] = 2 := by norm_num [qmean]
  have hva : qvar [(1 : ℚ), 3] = 1 := by norm_num [qvar, hma]
  have hmb : qmean [(5 : ℚ), 5] = 5 := by norm_num [qmean]
  have hvb : qvar [(5 : ℚ), 5] = 0 := by norm_num [qvar, hmb]
  have h1 : standardizeOne id mixedStdDf "a" =
      Except.ok ⟨[("a", DType.float64), ("b", DType.obj)],
        [[Value.num (-1), Value.num 5], [Value.num 1, Value.num 5]]⟩ := by
    simp only [standardizeOne]
    norm_num [colIdx, colNames, idxOfName, cellD, asQ, qOf, hma, hva, setDType,
      List.mapM, List.mapM.loop, mixedStdDf]
  have hab : (("a" : String) = "b") ↔ False := by
    constructor
    · intro hq
      exact absurd hq (by decide)
    · intro hq
      exact absurd hq (by decide)
  have h2 : standardizeOne id (⟨[("a", DType.float64), ("b", DType.obj)],
      [[Value.num (-1), Value.num 5], [Value.num 1, Value.num 5]]⟩ : DataFrame)
      "b" = Except.ok mixedStdOut := by
    simp only [standardizeOne]
    norm_num [colIdx, colNames, idxOfName, cellD, asQ, qOf, hmb, hvb, setDType,
      List.mapM, List.mapM.loop, mixedStdOut, hab]
  have hstd : _standardize id ["a", "b"] mixedStdDf = Except.ok mixedStdOut := by
    show List.foldlM (standardizeOne id) mixedStdDf ["a", "b"] = _
    rw [List.foldlM_cons, h1, except_bind_ok, List.foldlM_cons, h2, except_bind_ok,
      List.foldlM_nil]
    rfl
  have hsqa : id (qvar [(1 : ℚ), 3]) * id (qvar [(1 : ℚ), 3]) = qvar [(1 : ℚ), 3] := by
    rw [hva]
    norm_num
  have hsqb : id (qvar [(5 : ℚ), 5]) * id (qvar [(5 : ℚ), 5]) = qvar [(5 : ℚ), 5] := by
    rw [hvb]
    norm_num
  exact ⟨⟨by decide, hstd, rfl, rfl, hsqa, rfl, rfl, hsqb⟩,
    c10_standardize_spec id ["a", "b"] mixedStdDf mixedStdOut (by decide) hstd
      "a" (by decide) 0 [1, 3] rfl rfl hsqa,
    c10_standardize_spec id ["a", "b"] mixedStdDf mixedStdOut (by decide) hstd
      "b" (by decide) 1 [5, 5] rfl rfl hsqb⟩

/-- Witness for C3 at the ten-row scenario frame. -/
theorem c3_handle_missing_spec_witness :
    (∀ n ∈ ["floor", "status", "property_type", "rooms", "year_built",
        "property_condition", "price", "size"],
      (colIdx missingScenarioDf n).isSome) ∧
    ∃ df', _handle_missing_and_duplicated_values missingScenarioDf = Except.ok df' ∧
      df'.cols = missingScenarioDf.cols ∧
      ∀ r ∈ df'.rows,
        notNullB (cellD r ((colIdx missingScenarioDf "price").getD 0)) = true ∧
        notNullB (cellD r ((colIdx missingScenarioDf "size").getD 0)) = true :=
  ⟨by decide, c3_handle_missing_spec.1 missingScenarioDf (by decide)⟩
